import Mathlib

/-!
Verification of the Observer-pattern trucking demo (`src/index.js`).

The program has a `Driver` subject holding a `name`, a `status` string and an
ordered list of observers; observers are registered with `Add`, removed with
`Remove` (first identity match via `indexOf`/`splice`), and `ChangeStatus`
overwrites the status and calls `Notify`, which logs two header lines and then
invokes `Update(this)` on every registered observer in order.  Concrete
observers (`DriverManager`, `DispatchTeam`) log a line; the base
`IDriverObserver.Update` throws.  An interactive readline loop repeatedly asks
whether the status changed, validates a proposed new status against the
enumerated status set minus the current value, and applies it via
`ChangeStatus`.

The embedding below is pure: console output and `Update` invocations are
recorded as an explicit event trace, a thrown JavaScript error is an
`Except`-style error value that aborts the rest of a notification loop, and the
callback-driven readline loop is a step function on an explicit mode
(awaiting the yes/no answer, awaiting a new status, or closed).
-/

/-- The kinds of observer objects the source defines: the base
`IDriverObserver` (whose `Update` throws), `DriverManager` (carries a name)
and `DispatchTeam`. -/
inductive ObserverKind where
  | base
  | driverManager (name : String)
  | dispatchTeam
deriving DecidableEq

/-- An observer object: `oid` models JavaScript object identity (what `===`
and hence `indexOf` compare), `kind` the dynamic dispatch target of
`Update`. -/
structure Observer where
  oid : Nat
  kind : ObserverKind
deriving DecidableEq

/-- The `Driver` subject: `name`, `status` (initially "Available") and the
ordered `listOfObservers`. -/
structure Driver where
  name : String
  status : String
  listOfObservers : List Observer
deriving DecidableEq

/-- Observable events: a `console.log` line, or entering some observer's
`Update` handler with the subject that was passed. -/
inductive Event where
  | log (line : String)
  | updateCall (oid : Nat) (subject : Driver)
deriving DecidableEq

/-- `Update(driver)`, dispatched on the observer kind.  The base class throws
`"Update method must be implemented"`; the two concrete observers return the
line they log. -/
def Observer.Update (o : Observer) (d : Driver) : Except String String :=
  match o.kind with
  | .base => .error "Update method must be implemented"
  | .driverManager n =>
      .ok ("📋 Driver Manager " ++ n ++ ": \x7b" ++ d.name ++ "\x7d is now \x7b"
            ++ d.status ++ "\x7d")
  | .dispatchTeam =>
      .ok ("📡 Dispatch notified: \x7b" ++ d.name ++ "\x7d status changed to \x7b"
            ++ d.status ++ "\x7d")

/-- `new Driver(name)`: status starts as "Available", observer list empty. -/
def Driver.new (name : String) : Driver :=
  { name := name, status := "Available", listOfObservers := [] }

/-- `Add(observer)`: `this.listOfObservers.push(observer)` appends at the
end, with no duplicate check and no error condition. -/
def Driver.Add (d : Driver) (observer : Observer) : Driver :=
  { d with listOfObservers := d.listOfObservers ++ [observer] }

/-- `indexOf` + `splice(index, 1)`: drop the first element equal to `x`
(identity comparison); leave the list unchanged when there is none. -/
def removeFirst (x : Observer) : List Observer → List Observer
  | [] => []
  | y :: ys => if y = x then ys else y :: removeFirst x ys

/-- `Remove(observer)`: remove the first identity match from
`listOfObservers`; a no-op when the observer is not present. -/
def Driver.Remove (d : Driver) (observer : Observer) : Driver :=
  { d with listOfObservers := removeFirst observer d.listOfObservers }

/-- The `for (const observer of this.listOfObservers) observer.Update(this)`
loop.  Each iteration records the `Update` entry; a throwing handler aborts
the loop, the error propagating out (second component). -/
def notifyLoop (d : Driver) : List Observer → List Event × Option String
  | [] => ([], none)
  | o :: rest =>
    match o.Update d with
    | .error e => ([Event.updateCall o.oid d], some e)
    | .ok line =>
      let r := notifyLoop d rest
      (Event.updateCall o.oid d :: Event.log line :: r.1, r.2)

/-- `Notify()`: log the two header lines, then run the observer loop. -/
def Driver.Notify (d : Driver) : List Event × Option String :=
  let r := notifyLoop d d.listOfObservers
  (Event.log "UPDATE: Status has been changed." ::
    Event.log "Notify Observers:" :: r.1, r.2)

/-- `ChangeStatus(newStatus)`: overwrite `this.status`, then call `Notify()`
once.  Returns the updated driver together with that single notification's
trace. -/
def Driver.ChangeStatus (d : Driver) (newStatus : String) :
    Driver × (List Event × Option String) :=
  let d2 := { d with status := newStatus }
  (d2, d2.Notify)

/-- Project the `Update` invocations out of an event trace: which observer
was entered, and the subject reference it was passed. -/
def calls (evts : List Event) : List (Nat × Driver) :=
  evts.filterMap (fun e =>
    match e with
    | .updateCall i s => some (i, s)
    | .log _ => none)

/-- `new DriverManager("Rebecca")` from the demo setup. -/
def manager : Observer := { oid := 0, kind := .driverManager "Rebecca" }

/-- `new DriverManager("Higgins")` from the demo setup. -/
def manager2 : Observer := { oid := 1, kind := .driverManager "Higgins" }

/-- `new DispatchTeam()` from the demo setup. -/
def dispatch : Observer := { oid := 2, kind := .dispatchTeam }

/-- The demo driver after startup: `new Driver("Ted Lasso")` followed by the
three `Add` calls. -/
def driver : Driver :=
  (((Driver.new "Ted Lasso").Add manager).Add manager2).Add dispatch

/-- `const statuses = ["Available", "En Route", "Stopped", "Delivered"]`. -/
def statuses : List String := ["Available", "En Route", "Stopped", "Delivered"]

/-- `answer.toLowerCase()` (ASCII-relevant part: per-character lowering). -/
def toLowerCase (s : String) : String := String.mk (s.data.map Char.toLower)

/-- Where the interactive loop is waiting: for the yes/no answer, for the new
status (carrying the captured `availableStatuses`), or closed after
`rl.close()`. -/
inductive LoopMode where
  | awaitingContinue
  | awaitingNewStatus (availableStatuses : List String)
  | closed
deriving DecidableEq

/-- The interactive loop's state: the (single, global) driver and where the
readline callback chain is waiting. -/
structure LoopState where
  driver : Driver
  mode : LoopMode
deriving DecidableEq

/-- The status-list text: `availableStatuses[0]` when there is exactly one,
otherwise `slice(0, -1).join(", ") + ", or " + last`. -/
def statusListStr (availableStatuses : List String) : String :=
  if availableStatuses.length = 1 then availableStatuses.headD "undefined"
  else String.intercalate ", " availableStatuses.dropLast ++ ", or "
        ++ availableStatuses.getLastD "undefined"

/-- The lines `askForStatusChange` prints on (re)entry: the current-status
banner and the yes/no question. -/
def continuePrompt (d : Driver) : List Event :=
  [Event.log ("------ Current driver status: " ++ d.status ++ " ------ \n"),
   Event.log "Question: Has the driver status changed? (yes/no): "]

/-- One readline callback firing: consume one input line in the current mode,
producing the next state and the events emitted before the loop waits
again. -/
def step (st : LoopState) (input : String) : LoopState × List Event :=
  match st.mode with
  | .closed => (st, [])
  | .awaitingContinue =>
    if toLowerCase input = "yes" ∨ toLowerCase input = "y" then
      let avail := statuses.filter (fun s => s != st.driver.status)
      ({ st with mode := .awaitingNewStatus avail },
       [Event.log ("\nQuestion: What is the new status? (" ++ statusListStr avail ++ ")"),
        Event.log "Enter new status: "])
    else if toLowerCase input = "no" ∨ toLowerCase input = "n" then
      ({ st with mode := .closed },
       [Event.log "\nThank you for confirming this driver's status. Goodbye. \n"])
    else
      (st, Event.log "Please answer yes or no.\n" :: continuePrompt st.driver)
  | .awaitingNewStatus avail =>
    if input ∈ avail then
      let r := st.driver.ChangeStatus input
      ({ driver := r.1, mode := .awaitingContinue },
       (Event.log "" :: r.2.1) ++ (Event.log "" :: continuePrompt r.1))
    else
      ({ st with mode := .awaitingContinue },
       Event.log "Invalid status. Please try again.\n" :: continuePrompt st.driver)

/-- The loop state when `askForStatusChange()` first waits for input. -/
def initialState : LoopState := LoopState.mk driver LoopMode.awaitingContinue

/-- Run the loop from a state over a sequence of input lines, accumulating
the emitted events. -/
def runFrom (st : LoopState) : List String → LoopState × List Event
  | [] => (st, [])
  | i :: is =>
    let r := step st i
    let rest := runFrom r.1 is
    (rest.1, r.2 ++ rest.2)

/-- Run the whole program on a sequence of input lines. -/
def run (inputs : List String) : LoopState × List Event :=
  runFrom initialState inputs

/-- An observer that does not override `Update`, so its handler throws
(`new IDriverObserver()` is constructible in the source). -/
def baseObserver : Observer := { oid := 9, kind := .base }

/-- A driver with a throwing observer registered between two working ones,
used to exhibit the notification-abort behaviour. -/
def badDriver : Driver :=
  (((Driver.new "Ted Lasso").Add manager).Add baseObserver).Add dispatch

/-- The loop's status invariant: the driver's status is one of the four
enumerated values, and any captured `availableStatuses` list only holds
enumerated values. -/
def StatusInv (st : LoopState) : Prop :=
  st.driver.status ∈ statuses ∧
  ∀ avail, st.mode = LoopMode.awaitingNewStatus avail → ∀ s ∈ avail, s ∈ statuses


theorem Update_ok_of_ne_base (o : Observer) (d : Driver)
    (h : o.kind ≠ ObserverKind.base) :
    ∃ line, o.Update d = Except.ok line := by
  obtain ⟨i, k⟩ := o
  cases k with
  | base => exact absurd rfl h
  | driverManager n => exact ⟨_, rfl⟩
  | dispatchTeam => exact ⟨_, rfl⟩

theorem calls_log (line : String) (evts : List Event) :
    calls (Event.log line :: evts) = calls evts := by
  simp [calls]

theorem calls_updateCall (i : Nat) (s : Driver) (evts : List Event) :
    calls (Event.updateCall i s :: evts) = (i, s) :: calls evts := by
  simp [calls]

theorem notifyLoop_ok (d : Driver) (l : List Observer)
    (h : ∀ o ∈ l, o.kind ≠ ObserverKind.base) :
    calls (notifyLoop d l).1 = l.map (fun o => (o.oid, d)) ∧
    (notifyLoop d l).2 = none := by
  induction l with
  | nil => simp [notifyLoop, calls]
  | cons o rest ih =>
    obtain ⟨line, hline⟩ := Update_ok_of_ne_base o d (h o (List.mem_cons_self o rest))
    obtain ⟨ih1, ih2⟩ := ih (fun x hx => h x (List.mem_cons_of_mem o hx))
    refine ⟨?_, ?_⟩
    · simp [notifyLoop, hline, calls_updateCall, calls_log, ih1]
    · simp [notifyLoop, hline, ih2]

theorem notify_calls_ok (d : Driver)
    (h : ∀ o ∈ d.listOfObservers, o.kind ≠ ObserverKind.base) :
    calls (d.Notify).1 = d.listOfObservers.map (fun o => (o.oid, d)) ∧
    (d.Notify).2 = none := by
  obtain ⟨h1, h2⟩ := notifyLoop_ok d d.listOfObservers h
  exact ⟨by simpa [Driver.Notify, calls_log] using h1, by simpa [Driver.Notify] using h2⟩

/-- Claim C1: for every driver (whose registered observers all implement
`Update`, i.e. none is the throwing base class), `Notify` enters each
registered observer's `Update` handler exactly once, in registration order,
passing the subject itself, and no error escapes. -/
theorem C1_notify_each_once_in_order (d : Driver)
    (h : ∀ o ∈ d.listOfObservers, o.kind ≠ ObserverKind.base) :
    calls (d.Notify).1 = d.listOfObservers.map (fun o => (o.oid, d)) ∧
    (d.Notify).2 = none :=
  notify_calls_ok d h

/-- Claim C1, witnessed on the demo driver with its three registered
observers. -/
theorem C1_witness :
    calls (driver.Notify).1 = driver.listOfObservers.map (fun o => (o.oid, driver)) ∧
    (driver.Notify).2 = none :=
  C1_notify_each_once_in_order driver (by decide)

/-- Claim C2: `ChangeStatus s` unconditionally sets the status to `s` (no
validation in the subject) and performs exactly one `Notify` call — its trace
is exactly one notification of the updated driver — which enters each
currently registered observer's handler once, in registration order. -/
theorem C2_changeStatus_sets_then_notifies_once (d : Driver) (s : String)
    (h : ∀ o ∈ d.listOfObservers, o.kind ≠ ObserverKind.base) :
    (d.ChangeStatus s).1.status = s ∧
    (d.ChangeStatus s).2 = ({ d with status := s }).Notify ∧
    calls (d.ChangeStatus s).2.1 =
      d.listOfObservers.map (fun o => (o.oid, { d with status := s })) := by
  refine ⟨rfl, rfl, ?_⟩
  exact (notify_calls_ok { d with status := s } h).1

/-- Claim C2, witnessed by the spec's scenario: the demo driver changing
status to "En Route". -/
theorem C2_witness :
    (driver.ChangeStatus "En Route").1.status = "En Route" ∧
    (driver.ChangeStatus "En Route").2 = ({ driver with status := "En Route" }).Notify ∧
    calls (driver.ChangeStatus "En Route").2.1 =
      driver.listOfObservers.map (fun o => (o.oid, { driver with status := "En Route" })) :=
  C2_changeStatus_sets_then_notifies_once driver "En Route" (by decide)

/-- Claim C9: `ChangeStatus` touches only the status field — the driver's
name and its observer list (contents and order) are unchanged. -/
theorem C9_changeStatus_frame (d : Driver) (s : String) :
    (d.ChangeStatus s).1.name = d.name ∧
    (d.ChangeStatus s).1.listOfObservers = d.listOfObservers ∧
    (d.ChangeStatus s).1.status = s :=
  ⟨rfl, rfl, rfl⟩

theorem removeFirst_of_not_mem (x : Observer) (l : List Observer) (h : x ∉ l) :
    removeFirst x l = l := by
  induction l with
  | nil => rfl
  | cons y ys ih =>
    have hyx : y ≠ x := fun he => h (he ▸ List.mem_cons_self y ys)
    simp [removeFirst, hyx, ih (fun hm => h (List.mem_cons_of_mem y hm))]

theorem removeFirst_append_first (x : Observer) (l1 l2 : List Observer)
    (h : x ∉ l1) :
    removeFirst x (l1 ++ x :: l2) = l1 ++ l2 := by
  induction l1 with
  | nil => simp [removeFirst]
  | cons y ys ih =>
    have hyx : y ≠ x := fun he => h (he ▸ List.mem_cons_self y ys)
    simp [removeFirst, hyx, ih (fun hm => h (List.mem_cons_of_mem y hm))]

/-- Claim C4: `Remove x` removes exactly the first identity match from the
observer list, leaving all other elements in order, and keeps name and
status; on a list without `x` it is a no-op (not an error), so after removing
a listener registered once, a second `Remove` of it is a no-op.  (The last
conjunct states the general no-op fact for any driver.) -/
theorem C4_remove_first_match (d : Driver) (x : Observer) (l1 l2 : List Observer)
    (hsplit : d.listOfObservers = l1 ++ x :: l2) (h1 : x ∉ l1) :
    (d.Remove x).listOfObservers = l1 ++ l2 ∧
    (d.Remove x).name = d.name ∧ (d.Remove x).status = d.status ∧
    (x ∉ l2 → (d.Remove x).Remove x = d.Remove x) ∧
    (∀ e : Driver, ∀ y : Observer, y ∉ e.listOfObservers → e.Remove y = e) := by
  have hrm : (d.Remove x).listOfObservers = l1 ++ l2 := by
    simp [Driver.Remove, hsplit, removeFirst_append_first x l1 l2 h1]
  have hnoop : ∀ e : Driver, ∀ y : Observer, y ∉ e.listOfObservers → e.Remove y = e := by
    intro e y hy
    simp [Driver.Remove, removeFirst_of_not_mem y e.listOfObservers hy]
  refine ⟨hrm, rfl, rfl, ?_, hnoop⟩
  intro h2
  exact hnoop (d.Remove x) x (by
    rw [hrm]
    simp only [List.mem_append]
    rintro (hc | hc)
    · exact h1 hc
    · exact h2 hc)

/-- Claim C4, witnessed on the demo driver: removing `manager2` (registered
once, with `manager` before it and `dispatch` after it). -/
theorem C4_witness :
    (driver.Remove manager2).listOfObservers = [manager] ++ [dispatch] ∧
    (driver.Remove manager2).name = driver.name ∧
    (driver.Remove manager2).status = driver.status ∧
    (manager2 ∉ [dispatch] →
      ((driver.Remove manager2).Remove manager2) = driver.Remove manager2) ∧
    (∀ e : Driver, ∀ y : Observer, y ∉ e.listOfObservers → e.Remove y = e) :=
  C4_remove_first_match driver manager2 [manager] [dispatch] (by decide) (by decide)

/-- Claim C6: `Add x` appends `x` at the end of the observer list,
unconditionally (no duplicate check, no error), so adding the same listener
twice makes a subsequent `Notify` enter its handler twice: the call trace is
the doubled list in order, and the number of entries for `x`'s identity grows
by exactly two. -/
theorem C6_add_appends_allows_duplicates (d : Driver) (x : Observer)
    (h : ∀ o ∈ d.listOfObservers, o.kind ≠ ObserverKind.base)
    (hx : x.kind ≠ ObserverKind.base) :
    (d.Add x).listOfObservers = d.listOfObservers ++ [x] ∧
    calls (((d.Add x).Add x).Notify).1 =
      (d.listOfObservers ++ [x, x]).map (fun o => (o.oid, (d.Add x).Add x)) ∧
    (calls (((d.Add x).Add x).Notify).1).countP (fun p => p.1 == x.oid) =
      d.listOfObservers.countP (fun o => o.oid == x.oid) + 2 := by
  have hlist : ((d.Add x).Add x).listOfObservers = d.listOfObservers ++ [x, x] := by
    simp [Driver.Add]
  have hall : ∀ o ∈ ((d.Add x).Add x).listOfObservers, o.kind ≠ ObserverKind.base := by
    rw [hlist]
    intro o ho
    rcases List.mem_append.mp ho with hm | hm
    · exact h o hm
    · have hox : o = x := by simpa using hm
      rw [hox]
      exact hx
  have hcalls := (notify_calls_ok ((d.Add x).Add x) hall).1
  rw [hlist] at hcalls
  refine ⟨rfl, hcalls, ?_⟩
  have hfun : ((fun p => p.1 == x.oid) ∘ fun o : Observer => (o.oid, (d.Add x).Add x)) =
      fun o : Observer => o.oid == x.oid := rfl
  rw [hcalls, List.countP_map, hfun, List.countP_append]
  simp [List.countP_cons]

theorem C6_witness :
    (driver.Add dispatch).listOfObservers = driver.listOfObservers ++ [dispatch] ∧
    calls (((driver.Add dispatch).Add dispatch).Notify).1 =
      (driver.listOfObservers ++ [dispatch, dispatch]).map
        (fun o => (o.oid, (driver.Add dispatch).Add dispatch)) ∧
    (calls (((driver.Add dispatch).Add dispatch).Notify).1).countP
        (fun p => p.1 == dispatch.oid) =
      driver.listOfObservers.countP (fun o => o.oid == dispatch.oid) + 2 :=
  C6_add_appends_allows_duplicates driver dispatch (by decide) (by decide)

theorem notifyLoop_err (d : Driver) (l1 l2 : List Observer) (b : Observer)
    (h1 : ∀ o ∈ l1, o.kind ≠ ObserverKind.base) (hb : b.kind = ObserverKind.base) :
    calls (notifyLoop d (l1 ++ b :: l2)).1 =
      l1.map (fun o => (o.oid, d)) ++ [(b.oid, d)] ∧
    (notifyLoop d (l1 ++ b :: l2)).2 = some "Update method must be implemented" := by
  induction l1 with
  | nil =>
    have hupd : b.Update d = Except.error "Update method must be implemented" := by
      obtain ⟨i, k⟩ := b
      cases k with
      | base => rfl
      | driverManager n => exact ObserverKind.noConfusion hb
      | dispatchTeam => exact ObserverKind.noConfusion hb
    simp [notifyLoop, hupd, calls]
  | cons o rest ih =>
    obtain ⟨line, hline⟩ := Update_ok_of_ne_base o d (h1 o (List.mem_cons_self o rest))
    obtain ⟨ih1, ih2⟩ := ih (fun x hx => h1 x (List.mem_cons_of_mem o hx))
    constructor
    · simp [notifyLoop, hline, calls_updateCall, calls_log, ih1]
    · simp [notifyLoop, hline, ih2]

/-- Claim C7: a failing listener is not isolated.  If the observer list is
`l1 ++ b :: l2` with `b`'s handler throwing (and the listeners before it
working), `Notify` propagates the error out, the handlers of `l1` and `b`
are entered, and none of the listeners after `b` is invoked. -/
theorem C7_failing_listener_not_isolated (d : Driver) (l1 l2 : List Observer)
    (b : Observer) (hsplit : d.listOfObservers = l1 ++ b :: l2)
    (h1 : ∀ o ∈ l1, o.kind ≠ ObserverKind.base)
    (hb : b.kind = ObserverKind.base) :
    (d.Notify).2 = some "Update method must be implemented" ∧
    calls (d.Notify).1 = l1.map (fun o => (o.oid, d)) ++ [(b.oid, d)] := by
  obtain ⟨he1, he2⟩ := notifyLoop_err d l1 l2 b h1 hb
  constructor
  · simpa [Driver.Notify, hsplit] using he2
  · simpa [Driver.Notify, hsplit, calls_log] using he1

/-- Claim C7, witnessed on a driver whose second observer throws: the third
observer is never entered and the error escapes `Notify`. -/
theorem C7_witness :
    (badDriver.Notify).2 = some "Update method must be implemented" ∧
    calls (badDriver.Notify).1 =
      [manager].map (fun o => (o.oid, badDriver)) ++ [(baseObserver.oid, badDriver)] :=
  C7_failing_listener_not_isolated badDriver [manager] [dispatch] baseObserver
    (by decide) (by decide) rfl

theorem step_closed (d : Driver) (i : String) :
    step (LoopState.mk d LoopMode.closed) i = (LoopState.mk d LoopMode.closed, []) := rfl

theorem runFrom_closed (d : Driver) (future : List String) :
    runFrom (LoopState.mk d LoopMode.closed) future =
      (LoopState.mk d LoopMode.closed, []) := by
  induction future with
  | nil => rfl
  | cons i is ih => simp [runFrom, step_closed, ih]

/-- Claim C8: answering "no" or "n" (after lowercasing) at the continuation
prompt prints the goodbye message, closes the loop, changes no driver state,
and afterwards no input produces any further prompt or state change. -/
theorem C8_answer_no_terminates (st : LoopState) (input : String)
    (hmode : st.mode = LoopMode.awaitingContinue)
    (h : toLowerCase input = "no" ∨ toLowerCase input = "n") :
    (step st input).1.driver = st.driver ∧
    (step st input).1.mode = LoopMode.closed ∧
    (step st input).2 =
      [Event.log "\nThank you for confirming this driver's status. Goodbye. \n"] ∧
    ∀ future : List String, runFrom (step st input).1 future = ((step st input).1, []) := by
  obtain ⟨d, m⟩ := st
  simp only at hmode
  subst hmode
  have hnotyes : ¬(toLowerCase input = "yes" ∨ toLowerCase input = "y") := by
    rcases h with h | h <;> rw [h] <;> decide
  refine ⟨?_, ?_, ?_, ?_⟩ <;> simp [step, hnotyes, h]
  intro future
  exact runFrom_closed d future

theorem C8_witness :
    (step initialState "no").1.driver = initialState.driver ∧
    (step initialState "no").1.mode = LoopMode.closed ∧
    (step initialState "no").2 =
      [Event.log "\nThank you for confirming this driver's status. Goodbye. \n"] ∧
    runFrom (step initialState "no").1 ["yes", "Stopped"] = ((step initialState "no").1, []) := by
  obtain ⟨h1, h2, h3, h4⟩ :=
    C8_answer_no_terminates initialState "no" rfl (Or.inl (by decide))
  exact ⟨h1, h2, h3, h4 ["yes", "Stopped"]⟩

/-- Claim C10: yes/no matching is case-insensitive on the lowercased answer:
"yes"/"y" moves to asking for a new status (with the filtered status list and
its prompt), "no"/"n" closes the loop with the goodbye message, and any other
answer prints "Please answer yes or no." and reprompts with the state
unchanged. -/
theorem C10_continue_answer_cases (st : LoopState) (answer : String)
    (hmode : st.mode = LoopMode.awaitingContinue) :
    ((toLowerCase answer = "yes" ∨ toLowerCase answer = "y") →
      (step st answer).1.driver = st.driver ∧
      (step st answer).1.mode =
        LoopMode.awaitingNewStatus (statuses.filter (fun s => s != st.driver.status)) ∧
      (step st answer).2 =
        [Event.log ("\nQuestion: What is the new status? ("
            ++ statusListStr (statuses.filter (fun s => s != st.driver.status)) ++ ")"),
         Event.log "Enter new status: "]) ∧
    ((toLowerCase answer = "no" ∨ toLowerCase answer = "n") →
      (step st answer).1.driver = st.driver ∧
      (step st answer).1.mode = LoopMode.closed ∧
      (step st answer).2 =
        [Event.log "\nThank you for confirming this driver's status. Goodbye. \n"]) ∧
    ((toLowerCase answer ≠ "yes" ∧ toLowerCase answer ≠ "y" ∧
        toLowerCase answer ≠ "no" ∧ toLowerCase answer ≠ "n") →
      step st answer = (st, Event.log "Please answer yes or no.\n" :: continuePrompt st.driver)) := by
  obtain ⟨d, m⟩ := st
  simp only at hmode
  subst hmode
  refine ⟨?_, ?_, ?_⟩
  · intro h
    refine ⟨?_, ?_, ?_⟩ <;> simp [step, h]
  · intro h
    have hnotyes : ¬(toLowerCase answer = "yes" ∨ toLowerCase answer = "y") := by
      rcases h with h | h <;> rw [h] <;> decide
    refine ⟨?_, ?_, ?_⟩ <;> simp [step, hnotyes, h]
  · intro h
    simp [step, h.1, h.2.1, h.2.2.1, h.2.2.2]

theorem C10_witness :
    (step initialState "YES").1.mode =
      LoopMode.awaitingNewStatus
        (statuses.filter (fun s => s != initialState.driver.status)) ∧
    (step initialState "No").1.mode = LoopMode.closed ∧
    step initialState "maybe" =
      (initialState, Event.log "Please answer yes or no.\n" :: continuePrompt initialState.driver) :=
  ⟨((C10_continue_answer_cases initialState "YES" rfl).1 (Or.inl (by decide))).2.1,
   ((C10_continue_answer_cases initialState "No" rfl).2.1 (Or.inl (by decide))).2.1,
   (C10_continue_answer_cases initialState "maybe" rfl).2.2
     ⟨by decide, by decide, by decide, by decide⟩⟩

/-- Claim C5: answering "yes" and then a string outside the enumerated set
minus the current status (in particular, the current status itself) prints
the invalid-status message and reprompts; the driver (status and observer
list) is unchanged and no listener's handler is entered. -/
theorem C5_invalid_status_reprompts (st : LoopState) (s : String)
    (hmode : st.mode = LoopMode.awaitingContinue)
    (hs : s ∉ statuses.filter (fun t => t != st.driver.status)) :
    (step st "yes").1.driver = st.driver ∧
    (step (step st "yes").1 s).1.driver = st.driver ∧
    (step (step st "yes").1 s).1.mode = LoopMode.awaitingContinue ∧
    (step (step st "yes").1 s).2 =
      Event.log "Invalid status. Please try again.\n" :: continuePrompt st.driver ∧
    ∀ e ∈ (step (step st "yes").1 s).2, ∀ i d2, e ≠ Event.updateCall i d2 := by
  obtain ⟨d, m⟩ := st
  simp only at hmode hs
  subst hmode
  have hyes : toLowerCase "yes" = "yes" := by decide
  have hstep1 : (step (LoopState.mk d LoopMode.awaitingContinue) "yes").1 =
      LoopState.mk d (LoopMode.awaitingNewStatus
        (statuses.filter (fun t => t != d.status))) := by
    simp [step, hyes]
  rw [hstep1]
  refine ⟨rfl, ?_, ?_, ?_, ?_⟩ <;> simp [step, hs, continuePrompt]

theorem C5_witness :
    (step (step initialState "yes").1 "Available").1.driver = initialState.driver ∧
    (step (step initialState "yes").1 "Available").1.mode = LoopMode.awaitingContinue ∧
    (step (step initialState "yes").1 "Available").2 =
      Event.log "Invalid status. Please try again.\n" :: continuePrompt initialState.driver := by
  obtain ⟨h1, h2, h3, h4, h5⟩ :=
    C5_invalid_status_reprompts initialState "Available" rfl (by decide)
  exact ⟨h2, h3, h4⟩

theorem step_preserves_StatusInv (st : LoopState) (i : String) (h : StatusInv st) :
    StatusInv (step st i).1 := by
  obtain ⟨d, m⟩ := st
  obtain ⟨h1, h2⟩ := h
  simp only at h1 h2
  cases m with
  | closed => exact ⟨h1, h2⟩
  | awaitingContinue =>
    by_cases hy : toLowerCase i = "yes" ∨ toLowerCase i = "y"
    · refine ⟨by simpa [step, hy] using h1, ?_⟩
      intro avail hav s hsm
      simp only [step, hy, if_true] at hav
      have : statuses.filter (fun t => t != d.status) = avail := by
        injection hav
      rw [← this] at hsm
      exact List.mem_of_mem_filter hsm
    · by_cases hn : toLowerCase i = "no" ∨ toLowerCase i = "n"
      · refine ⟨by simpa [step, hy, hn] using h1, ?_⟩
        intro avail hav
        simp [step, hy, hn] at hav
      · refine ⟨by simpa [step, hy, hn] using h1, ?_⟩
        intro avail hav
        simp [step, hy, hn] at hav
  | awaitingNewStatus avail =>
    by_cases hin : i ∈ avail
    · refine ⟨?_, ?_⟩
      · have : (step (LoopState.mk d (LoopMode.awaitingNewStatus avail)) i).1.driver.status
            = i := by
          simp [step, hin, Driver.ChangeStatus]
        rw [this]
        exact h2 avail rfl i hin
      · intro avail2 hav
        simp [step, hin] at hav
    · refine ⟨by simpa [step, hin] using h1, ?_⟩
      intro avail2 hav
      simp [step, hin] at hav

theorem runFrom_preserves_StatusInv (st : LoopState) (inputs : List String)
    (h : StatusInv st) : StatusInv (runFrom st inputs).1 := by
  induction inputs generalizing st with
  | nil => exact h
  | cons i is ih =>
    simpa [runFrom] using ih (step st i).1 (step_preserves_StatusInv st i h)

/-- Claim C3: the demo driver starts with status "Available", and in every
state the interactive loop can reach from startup, the status is one of the
four enumerated values. -/
theorem C3_status_always_enumerated :
    driver.status = "Available" ∧
    ∀ inputs : List String, (run inputs).1.driver.status ∈ statuses := by
  refine ⟨rfl, ?_⟩
  intro inputs
  have hinv : StatusInv initialState := by
    constructor
    · decide
    · intro avail hav
      exact absurd hav (by simp [initialState])
  exact (runFrom_preserves_StatusInv initialState inputs hinv).1
